import Mathlib

/-!
Verification development for the trimesh windowed viewer
(`trimesh/viewer/windowed.py`).

The Python module is shallowly embedded below: pure helper functions
(`view_to_transform`, `geometry_hash`, the depth-range computation of
`init_gl`) become Lean functions over exact rationals/reals, and the
stateful pieces (`on_draw`'s transparency-deferral queue, `toggle_axis`
plus `update_flags`, `reset_view`, `add_geometry`'s bookkeeping maps)
become explicit state-passing functions.  External collaborators
(pyglet, numpy, the `rendering` module, `Arcball`) are modelled at the
boundary: their outputs are parameters of the embedded functions.
-/

/-- 4×4 matrices over exact rationals, standing in for the float
`numpy` 4×4 arrays used by the viewer. -/
abbrev Mat4 := Matrix (Fin 4) (Fin 4) ℚ

/-- 3-vectors over exact rationals. -/
abbrev Vec3 := Fin 3 → ℚ

/-- Embedding of `view_to_transform(view)`:

    transform = view['ball'].matrix()
    transform[:3, 3] = view['center']
    transform[:3, 3] -= np.dot(transform[:3, :3], view['center'])
    transform[:3, 3] += view['translation'] * view['scale'] * 5.0

`ball` is the 4×4 matrix returned by the arcball widget (external
collaborator, hence a parameter).  Only the first three rows of the
last column are overwritten; every other entry keeps the value from
`ball`. -/
def view_to_transform (ball : Mat4) (center translation : Vec3)
    (scale : ℚ) : Mat4 :=
  Matrix.of fun i j =>
    if h : i.val < 3 ∧ j = 3 then
      center ⟨i.val, h.1⟩
        - (∑ k : Fin 3, ball i k.castSucc * center k)
        + translation ⟨i.val, h.1⟩ * scale * 5
    else ball i j

/-- C1: for every view state, `view_to_transform` keeps the arcball's
upper-left 3×3 rotation block intact, sets the translation column to
`center - R·center + translation·scale·5.0`, and in particular with
identity rotation and zero center the translation column is
`(tx·s·5, ty·s·5, tz·s·5)`. -/
theorem view_to_transform_spec (ball : Mat4) (center translation : Vec3)
    (scale : ℚ) :
    (∀ i j : Fin 3,
      view_to_transform ball center translation scale i.castSucc j.castSucc
        = ball i.castSucc j.castSucc) ∧
    (∀ i : Fin 3,
      view_to_transform ball center translation scale i.castSucc 3
        = center i - (∑ k : Fin 3, ball i.castSucc k.castSucc * center k)
            + translation i * scale * 5) ∧
    (ball = 1 → center = 0 → ∀ i : Fin 3,
      view_to_transform ball center translation scale i.castSucc 3
        = translation i * scale * 5) := by
  refine ⟨?_, ?_, ?_⟩
  · intro i j
    have hj : (j.castSucc : Fin 4) ≠ 3 := by
      fin_cases j <;> decide
    simp [view_to_transform, hj]
  · intro i
    have hi : (i.castSucc : Fin 4).val < 3 := i.isLt
    have hcast : (⟨(i.castSucc : Fin 4).val, hi⟩ : Fin 3) = i := by
      simp [Fin.ext_iff]
    simp [view_to_transform, hi, hcast]
  · intro hball hcenter i
    have hi : (i.castSucc : Fin 4).val < 3 := i.isLt
    subst hball hcenter
    simp [view_to_transform, hi]

/-- Closed-instance check for C1: identity rotation, zero center,
unit translation, scale 2 gives a translation column entry 1·2·5 = 10. -/
theorem view_to_transform_spec_witness :
    view_to_transform 1 0 (fun _ => 1) 2 (0 : Fin 3).castSucc 3 = 10 := by
  have h := (view_to_transform_spec 1 0 (fun _ => 1) 2).2.2 rfl rfl 0
  norm_num at h
  exact h

/-! ### Depth-range computation in `init_gl` (C5) -/

/-- The two corners of the scene's axis-aligned bounding box:
`scene.bounds` is a 2×3 array `[[minx, miny, minz], [maxx, maxy, maxz]]`. -/
abbrev Bounds := Fin 2 → Vec3

/-- `np.abs(row).max()` over one row (corner) of the bounds array:
the maximum absolute coordinate of that corner. -/
def rowMaxAbs (row : Vec3) : ℚ := max |row 0| (max |row 1| |row 2|)

/-- `(np.abs(self.scene.bounds).max(axis=1) ** 2).sum()`: `axis=1`
reduces each ROW, so this is the sum over the two corners of the
square of each corner's maximum absolute coordinate. -/
def boundsDepthSq (b : Bounds) : ℚ :=
  rowMaxAbs (b 0) ^ 2 + rowMaxAbs (b 1) ^ 2

/-- `np.clip(x, lo, np.inf)`: with an infinite upper bound the clip is
just a lower clamp. -/
def np_clip_inf (x lo : ℝ) : ℝ := max x lo

/-- `max_depth` as computed by `SceneViewer.init_gl`:
`((np.abs(bounds).max(axis=1) ** 2).sum() ** .5)` clipped to
`[500, inf)`; used as the far bound of `glDepthRange(0.0, max_depth)`. -/
noncomputable def init_gl_max_depth (b : Bounds) : ℝ :=
  np_clip_inf (Real.sqrt ((boundsDepthSq b : ℚ) : ℝ)) 500

/-- The formula C5 states, written from the spec words: square root of
the sum of squares of the bounds' maximum absolute extents PER AXIS
(one term per coordinate axis), clamped below at 500. -/
noncomputable def spec_max_depth_per_axis (b : Bounds) : ℝ :=
  max (Real.sqrt ((∑ j : Fin 3, (max |b 0 j| |b 1 j|) ^ 2 : ℚ) : ℝ)) 500

/-- Bounds whose min corner is `(-600, -800, 0)` and max corner the
origin: the code's per-corner reduction gives `sqrt(800² + 0²) = 800`,
while the claimed per-axis reduction gives `sqrt(600² + 800²) = 1000`. -/
def counterBounds : Bounds := ![![-600, -800, 0], ![0, 0, 0]]

/-- Bounds with corner maxima 720 and 960, giving the magnitude
`sqrt(720² + 960²) = 1200` used in the claim's example. -/
def bounds1200 : Bounds := ![![-720, 0, 0], ![0, 960, 0]]

/-- Bounds of a small scene: corner maxima 1 and 1, magnitude `sqrt 2`. -/
def boundsSmall : Bounds := ![![1, 1, 1], ![1, 1, 1]]

/-- C5 counterexample: on `counterBounds` the code computes a far
depth bound of 800 (per-corner reduction, `axis=1`), while the claim's
per-axis formula gives 1000, so the claim as stated is false. -/
theorem init_gl_max_depth_counterexample :
    init_gl_max_depth counterBounds = 800 ∧
    spec_max_depth_per_axis counterBounds = 1000 ∧
    init_gl_max_depth counterBounds ≠ spec_max_depth_per_axis counterBounds := by
  have h1 : boundsDepthSq counterBounds = 640000 := by
    norm_num [boundsDepthSq, rowMaxAbs, counterBounds]
  have h2 : (∑ j : Fin 3, (max |counterBounds 0 j| |counterBounds 1 j| : ℚ) ^ 2)
      = 1000000 := by
    norm_num [Fin.sum_univ_three, counterBounds]
  have hcode : init_gl_max_depth counterBounds = 800 := by
    rw [init_gl_max_depth, h1, np_clip_inf]
    rw [show (((640000 : ℚ) : ℝ)) = 800 ^ 2 by norm_num,
      Real.sqrt_sq (by norm_num : (0:ℝ) ≤ 800)]
    norm_num
  have hspec : spec_max_depth_per_axis counterBounds = 1000 := by
    rw [spec_max_depth_per_axis, h2]
    rw [show (((1000000 : ℚ) : ℝ)) = 1000 ^ 2 by norm_num,
      Real.sqrt_sq (by norm_num : (0:ℝ) ≤ 1000)]
    norm_num
  refine ⟨hcode, hspec, ?_⟩
  rw [hcode, hspec]
  norm_num

/-- C5 amended: the far depth-range bound is the square root of the
sum, over the TWO BOUND CORNERS, of the square of each corner's
maximum absolute coordinate, clamped below at 500 with no upper bound:
a magnitude below 500 yields exactly 500.0, and a magnitude of 1200
(e.g. `bounds1200`) yields 1200.0. -/
theorem init_gl_max_depth_amended :
    (∀ b : Bounds, Real.sqrt ((boundsDepthSq b : ℚ) : ℝ) < 500 →
      init_gl_max_depth b = 500) ∧
    (∀ b : Bounds, 500 ≤ Real.sqrt ((boundsDepthSq b : ℚ) : ℝ) →
      init_gl_max_depth b = Real.sqrt ((boundsDepthSq b : ℚ) : ℝ)) ∧
    init_gl_max_depth bounds1200 = 1200 := by
  refine ⟨?_, ?_, ?_⟩
  · intro b h
    rw [init_gl_max_depth, np_clip_inf]
    exact max_eq_right h.le
  · intro b h
    rw [init_gl_max_depth, np_clip_inf]
    exact max_eq_left h
  · have h1 : boundsDepthSq bounds1200 = 1440000 := by
      norm_num [boundsDepthSq, rowMaxAbs, bounds1200]
    rw [init_gl_max_depth, h1, np_clip_inf]
    rw [show (((1440000 : ℚ) : ℝ)) = 1200 ^ 2 by norm_num,
      Real.sqrt_sq (by norm_num : (0:ℝ) ≤ 1200)]
    norm_num

/-- Closed-instance check for C5 (amended): a scene with unit-sized
bounds has magnitude `sqrt 2 < 500`, so the far bound clamps to 500. -/
theorem init_gl_max_depth_amended_witness :
    init_gl_max_depth boundsSmall = 500 := by
  apply init_gl_max_depth_amended.1
  have h1 : boundsDepthSq boundsSmall = 2 := by
    norm_num [boundsDepthSq, rowMaxAbs, boundsSmall]
  rw [h1]
  rw [Real.sqrt_lt' (by norm_num : (0:ℝ) < 500)]
  norm_num

/-! ### Axis-mode cycling: `toggle_axis` and the axis part of
`update_flags` (C6) -/

/-- The three values `self.view['axis']` can take: `False`, `'world'`,
`'all'`. -/
inductive AxisMode where
  | off
  | world
  | all
deriving DecidableEq, BEq, Repr

/-- `states = [False, 'world', 'all']` from `toggle_axis`. -/
def axisStates : List AxisMode := [.off, .world, .all]

/-- Python truthiness of the axis flag: `False` is falsy, the strings
`'world'` and `'all'` are truthy. -/
def axisTruthy : AxisMode → Bool
  | .off => false
  | .world => true
  | .all => true

/-- The viewer state that `toggle_axis`/`update_flags` touch:
`self.view['axis']` and the cached axis vertex list `self._axis`
(`some ()` models a stored vertex list, `none` models `None`). -/
structure AxisState where
  axis : AxisMode
  axisBuffer : Option Unit
deriving DecidableEq, Repr

/-- The axis-marker part of `SceneViewer.update_flags`: create the
vertex list when the axis flag is truthy and none is stored, delete it
when the flag is falsy and one is stored, otherwise leave it alone. -/
def update_flags_axis (s : AxisState) : AxisState :=
  if axisTruthy s.axis = true ∧ s.axisBuffer = none then
    { s with axisBuffer := some () }
  else if axisTruthy s.axis = false ∧ s.axisBuffer ≠ none then
    { s with axisBuffer := none }
  else s

/-- `SceneViewer.toggle_axis`: step to the next entry of
`states = [False, 'world', 'all']` modulo 3, then apply flags. -/
def toggle_axis (s : AxisState) : AxisState :=
  update_flags_axis
    { s with
      axis := axisStates.getD ((axisStates.indexOf s.axis + 1) % axisStates.length) .off }

/-- The default view state: axis off (`reset_view` sets
`'axis': False`) and no stored axis vertex list (`self._axis = None`). -/
def defaultAxisState : AxisState := ⟨.off, none⟩

/-- C6: from the default state, `toggle_axis` cycles
off → world-only → every-frame → off (three calls restore the starting
mode), and the axis vertex list is present after the first and second
calls and absent again after the third. -/
theorem toggle_axis_cycle :
    (toggle_axis defaultAxisState).axis = .world ∧
    (toggle_axis (toggle_axis defaultAxisState)).axis = .all ∧
    (toggle_axis (toggle_axis (toggle_axis defaultAxisState))).axis = .off ∧
    toggle_axis (toggle_axis (toggle_axis defaultAxisState)) = defaultAxisState ∧
    (toggle_axis defaultAxisState).axisBuffer.isSome = true ∧
    (toggle_axis (toggle_axis defaultAxisState)).axisBuffer.isSome = true ∧
    (toggle_axis (toggle_axis (toggle_axis defaultAxisState))).axisBuffer = none := by
  decide

/-! ### `geometry_hash` (C9) -/

/-- A geometry object as `geometry_hash` probes it with `hasattr`:
`md5 = some d` models an object whose `md5()` method returns `d`;
`tostring = some bytes` models an object whose `tostring()` returns
those bytes; `visualCrc = some c` models an object carrying a
`visual` attribute whose `crc()` returns `c`. `none` models the
attribute being absent. -/
structure PyGeometry where
  md5 : Option String
  tostring : Option String
  visualCrc : Option Int
deriving DecidableEq, Repr

/-- Embedding of `geometry_hash(geometry)`.  `pyHash` is Python's
builtin `hash` on byte strings (an external function, hence a
parameter).  The local variable `md5` is only assigned on the
`hasattr('md5')` and `hasattr('tostring')` branches; if neither
attribute exists, both the `md5 += ...` statement (when a visual is
present) and the final `return md5` read an unassigned local, which
Python reports as an `UnboundLocalError`. -/
def geometry_hash (pyHash : String → Int) (g : PyGeometry) :
    Except String String :=
  let base : Option String :=
    match g.md5 with
    | some d => some d
    | none =>
      match g.tostring with
      | some bytes => some (toString (pyHash bytes))
      | none => none
  match base, g.visualCrc with
  | some m, some c => .ok (m ++ toString c)
  | some m, none => .ok m
  | none, _ => .error "UnboundLocalError"

/-- C9: on a geometry exposing neither `md5` nor `tostring`,
`geometry_hash` raises `UnboundLocalError` instead of returning any
fallback identity, whether or not a visual sub-object is present. -/
theorem geometry_hash_unbound_local (pyHash : String → Int)
    (g : PyGeometry) (hmd5 : g.md5 = none) (hts : g.tostring = none) :
    geometry_hash pyHash g = .error "UnboundLocalError" := by
  cases g with
  | mk m t v =>
    cases hmd5
    cases hts
    cases v <;> rfl

/-- Closed-instance check for C9: a digest-less, serialization-less
geometry carrying a visual checksum still hits the unbound local. -/
theorem geometry_hash_unbound_local_witness :
    geometry_hash (fun _ => 0) ⟨none, none, some 5⟩
      = .error "UnboundLocalError" :=
  geometry_hash_unbound_local (fun _ => 0) ⟨none, none, some 5⟩ rfl rfl

/-! ### Smooth-shading threshold (C3) -/

/-- `_SMOOTH_MAX_FACES = 100000`, defined at module level with the
comment "smooth only when fewer faces than this".  No other line of
the module reads this constant. -/
def _SMOOTH_MAX_FACES : Nat := 100000

/-- The `smooth` argument the constructor hands to
`rendering.convert_to_vertexlist` for each scene geometry:
`self.add_geometry(name=name, geometry=mesh, smooth=bool(smooth))`.
The mesh's face count never enters the computation. -/
def init_smooth_request (smooth : Bool) (faceCount : Nat) : Bool :=
  smooth

/-- C3 evaluated on the code: with `smooth=true` the conversion
dependency is asked for smooth shading even for a geometry with
`_SMOOTH_MAX_FACES` (100,000) faces — and indeed for every face
count — because `_SMOOTH_MAX_FACES` is never consulted.  The claim
(and the constant's own comment) requires the request to be withheld
at or above 100,000 faces. -/
theorem init_smooth_request_ignores_threshold :
    init_smooth_request true _SMOOTH_MAX_FACES = true ∧
    (∀ faceCount : Nat, init_smooth_request true faceCount = true) :=
  ⟨rfl, fun _ => rfl⟩

/-! ### Offscreen-render window visibility (C4) -/

/-- The `visible` argument `render_scene` forwards to the
`SceneViewer` (and hence pyglet window) constructor: the caller's
value, unchanged — the window is built before any platform check runs.
`none` models Python's `None`; the second argument is
`platform.system()`, which the forwarding does not consult. -/
def render_scene_window_visible (visible : Option Bool)
    (system : String) : Option Bool :=
  visible

/-- The recomputation `if visible is None: visible =
platform.system() != 'Linux'` that `render_scene` performs AFTER the
window has been constructed; the resulting local is never used again. -/
def render_scene_visible_fallback (visible : Option Bool)
    (system : String) : Option Bool :=
  match visible with
  | none => some (!(system == "Linux"))
  | some b => some b

/-- C4 evaluated on the code: calling `render_scene` with
`visible=None` on a non-Linux platform still constructs the window
with visibility `None` (which pyglet treats as falsy, so the window is
not shown), identical to the Linux behaviour, even though the dead
post-construction fallback would have chosen `true` there.  The claim
says the window is visible on every non-Linux platform. -/
theorem render_scene_visible_dead_fallback :
    render_scene_window_visible none "Windows" = none ∧
    render_scene_window_visible none "Windows" ≠ some true ∧
    render_scene_visible_fallback none "Windows" = some true ∧
    (∀ system : String,
      render_scene_window_visible none system
        = render_scene_window_visible none "Linux") := by
  refine ⟨rfl, by simp [render_scene_window_visible], rfl, fun _ => rfl⟩

/-! ### The per-frame draw routine `SceneViewer.on_draw` (C2, C7) -/

/-- What `on_draw` needs from a geometry object:
`hasattr(mesh, 'visual') and hasattr(mesh.visual, 'transparency') and
mesh.visual.transparency`, collapsed into one flag (`false` also
covers meshes without a visual or without a transparency attribute). -/
structure Mesh where
  transparent : Bool
deriving DecidableEq, Repr

/-- One geometry-bearing node of the scene graph, together with what
`self.scene.graph[current_node]` returns for it: the node-to-world
transform and the referenced geometry name (`none` models a frame
without geometry). -/
structure GraphNode where
  name : String
  transform : Mat4
  geometryName : Option String

/-- The slice of the scene that `on_draw` reads: the ordered list of
geometry-bearing node names (`scene.graph.nodes_geometry`, with their
graph lookups attached) and the geometry mapping (`scene.geometry`). -/
structure SceneGraphModel where
  nodes : List GraphNode
  geometry : String → Option Mesh

/-- A draw call issued by `on_draw`: which node it was issued for and
the transform on the matrix stack at that moment (the node transform,
possibly pre-multiplied by the inverse view transform). -/
structure DrawCall where
  node : String
  transform : Mat4

/-- `np.linalg.inv` on a 4×4 matrix, embedded as the exact inverse
`det⁻¹ · adjugate` (agrees with the true inverse on every invertible
matrix, which is the only case `numpy` computes). -/
def npInv (A : Mat4) : Mat4 := (A.det)⁻¹ • A.adjugate

/-- `self.fixed is not None and geometry_name in self.fixed`. -/
def isFixed (fixed : Option (List String)) (g : String) : Bool :=
  match fixed with
  | none => false
  | some l => decide (g ∈ l)

/-- Whether a node's referenced geometry reports itself transparent. -/
def nodeTransparent (geometry : String → Option Mesh) (n : GraphNode) : Bool :=
  match n.geometryName with
  | none => false
  | some g =>
    match geometry g with
    | none => false
    | some m => m.transparent

/-- Whether a node's geometry name is in the caller-supplied fixed set. -/
def nodeFixed (fixed : Option (List String)) (n : GraphNode) : Bool :=
  match n.geometryName with
  | none => false
  | some g => isFixed fixed g

/-- The draw call `on_draw` issues for a node once it actually draws
it: the node transform, replaced by `inverse(view) · transform` when
the geometry is in the fixed set. -/
def drawCallOf (fixed : Option (List String)) (view : Mat4)
    (n : GraphNode) : DrawCall :=
  ⟨n.name, if nodeFixed fixed n = true then npInv view * n.transform
           else n.transform⟩

/-- The `while len(node_names) > 0` loop of `SceneViewer.on_draw`.
`count` is the number of previously started iterations (the Python
`count` variable starts at `-1` and is incremented at the top of the
loop, so its value inside iteration `k` is `k`); `orig` is
`count_original`.  A transparent node seen while `count <
count_original` is popped without drawing and appended to the back of
the queue; everything else is drawn in place.  A node whose geometry
name is absent is skipped; a geometry name missing from the scene's
geometry map is a `KeyError`, modelled as `.error`.  `fuel` bounds the
iteration count (the caller supplies enough for both passes). -/
def drawLoop (geometry : String → Option Mesh) (fixed : Option (List String))
    (view : Mat4) :
    Nat → List GraphNode → Nat → Nat → Except String (List DrawCall)
  | 0, _, _, _ => .error "out of fuel"
  | _ + 1, [], _, _ => .ok []
  | fuel + 1, node :: rest, count, orig =>
    match node.geometryName with
    | none => drawLoop geometry fixed view fuel rest (count + 1) orig
    | some gname =>
      let t := if isFixed fixed gname = true then npInv view * node.transform
               else node.transform
      match geometry gname with
      | none => .error gname
      | some mesh =>
        if mesh.transparent = true ∧ count < orig then
          drawLoop geometry fixed view fuel (rest ++ [node]) (count + 1) orig
        else
          match drawLoop geometry fixed view fuel rest (count + 1) orig with
          | .ok calls => .ok (⟨node.name, t⟩ :: calls)
          | .error e => .error e

/-- One invocation of the draw routine: seed the queue with all
geometry-bearing nodes, `count = -1` (so 0 started iterations) and
`count_original` equal to the queue length.  `2·n + 1` fuel covers the
at-most-one requeue of each node. -/
def on_draw (scene : SceneGraphModel) (fixed : Option (List String))
    (view : Mat4) : Except String (List DrawCall) :=
  drawLoop scene.geometry fixed view (2 * scene.nodes.length + 1)
    scene.nodes 0 scene.nodes.length

/-- Premise of C2/C7: every geometry-bearing node references a present
geometry. -/
def nodesHaveGeometry (geometry : String → Option Mesh)
    (l : List GraphNode) : Prop :=
  ∀ n ∈ l, ∃ g m, n.geometryName = some g ∧ geometry g = some m

/-- Helper: once `count` has reached `count_original`, the deferral
test is dead and the loop just draws the queue front to back. -/
lemma drawLoop_second_pass (geometry : String → Option Mesh)
    (fixed : Option (List String)) (view : Mat4) :
    ∀ (q : List GraphNode) (fuel count orig : Nat),
      orig ≤ count → q.length < fuel →
      nodesHaveGeometry geometry q →
      drawLoop geometry fixed view fuel q count orig
        = .ok (q.map (drawCallOf fixed view)) := by
  intro q
  induction q with
  | nil =>
    intro fuel count orig h1 h2 h3
    obtain ⟨f, rfl⟩ : ∃ f, fuel = f + 1 := ⟨fuel - 1, by omega⟩
    rfl
  | cons n rest ih =>
    intro fuel count orig h1 h2 h3
    obtain ⟨f, rfl⟩ : ∃ f, fuel = f + 1 := ⟨fuel - 1, by omega⟩
    obtain ⟨g, m, hg, hm⟩ := h3 n (List.mem_cons_self n rest)
    have hrec := ih f (count + 1) orig (by omega)
      (by simp only [List.length_cons] at h2; omega)
      (fun x hx => h3 x (List.mem_cons_of_mem n hx))
    have hcond : ¬(m.transparent = true ∧ count < orig) := by
      rintro ⟨-, hc⟩
      omega
    simp only [drawLoop, hg, hm, if_neg hcond, hrec, List.map_cons]
    simp [drawCallOf, nodeFixed, hg]

/-- Helper: during the first pass (`count + |r| = count_original`,
with `r` the not-yet-processed original nodes and `t` the already
requeued transparent ones behind them), opaque nodes of `r` are drawn
in order and transparent nodes of `r` are appended behind `t`; the
second pass then draws `t` and the deferred nodes in order. -/
lemma drawLoop_first_pass (geometry : String → Option Mesh)
    (fixed : Option (List String)) (view : Mat4) :
    ∀ (r t : List GraphNode) (fuel count orig : Nat),
      count + r.length = orig →
      2 * r.length + t.length < fuel →
      nodesHaveGeometry geometry r →
      nodesHaveGeometry geometry t →
      drawLoop geometry fixed view fuel (r ++ t) count orig
        = .ok (((r.filter fun n => !nodeTransparent geometry n).map
                  (drawCallOf fixed view))
            ++ ((t ++ r.filter fun n => nodeTransparent geometry n).map
                  (drawCallOf fixed view))) := by
  intro r
  induction r with
  | nil =>
    intro t fuel count orig h1 h2 hr ht
    simp only [List.nil_append, List.filter_nil, List.map_nil,
      List.append_nil]
    exact drawLoop_second_pass geometry fixed view t fuel count orig
      (by simp at h1; omega) (by simpa using h2) ht
  | cons n r2 ih =>
    intro t fuel count orig h1 h2 hr ht
    obtain ⟨f, rfl⟩ : ∃ f, fuel = f + 1 := ⟨fuel - 1, by omega⟩
    obtain ⟨g, m, hg, hm⟩ := hr n (List.mem_cons_self n r2)
    have hcount : count < orig := by
      simp only [List.length_cons] at h1
      omega
    have hr2 : nodesHaveGeometry geometry r2 :=
      fun x hx => hr x (List.mem_cons_of_mem n hx)
    have htr : nodeTransparent geometry n = m.transparent := by
      simp [nodeTransparent, hg, hm]
    rcases hmt : m.transparent with _ | _
    · -- opaque: drawn in place, loop continues on `r2 ++ t`
      have hrec := ih t f (count + 1) orig
        (by simp only [List.length_cons] at h1; omega)
        (by simp only [List.length_cons] at h2; omega) hr2 ht
      have hcond : ¬(m.transparent = true ∧ count < orig) := by
        rw [hmt]; rintro ⟨h, -⟩; exact Bool.false_ne_true h
      simp only [List.cons_append, drawLoop, hg, hm, if_neg hcond,
        List.append_eq]
      rw [hrec]
      rw [List.filter_cons_of_pos (by simp [htr, hmt]),
        List.filter_cons_of_neg (by simp [htr, hmt])]
      simp [drawCallOf, nodeFixed, hg, List.map_append]
    · -- transparent: requeued behind `t`
      have hrec := ih (t ++ [n]) f (count + 1) orig
        (by simp only [List.length_cons] at h1; omega)
        (by
          simp only [List.length_cons, List.length_append,
            List.length_nil] at h2 ⊢
          omega)
        hr2
        (by
          intro x hx
          rcases List.mem_append.1 hx with hx | hx
          · exact ht x hx
          · rcases List.mem_singleton.1 hx with rfl
            exact ⟨g, m, hg, hm⟩)
      have hcond : m.transparent = true ∧ count < orig := ⟨hmt, hcount⟩
      have hq : (r2 ++ t) ++ [n] = r2 ++ (t ++ [n]) := List.append_assoc r2 t [n]
      simp only [List.cons_append, drawLoop, hg, hm, if_pos hcond,
        List.append_eq]
      rw [hq, hrec]
      rw [List.filter_cons_of_neg (by simp [htr, hmt]),
        List.filter_cons_of_pos (by simp [htr, hmt])]
      congr 2
      simp

/-- Helper: closed form of one `on_draw` invocation when every node's
geometry is present — the opaque nodes are drawn first in enumeration
order, then the transparent nodes in enumeration order, each with its
(possibly fixed-adjusted) transform. -/
lemma on_draw_eq (scene : SceneGraphModel) (fixed : Option (List String))
    (view : Mat4) (h : nodesHaveGeometry scene.geometry scene.nodes) :
    on_draw scene fixed view
      = .ok (((scene.nodes.filter fun n => !nodeTransparent scene.geometry n).map
                (drawCallOf fixed view))
          ++ ((scene.nodes.filter fun n => nodeTransparent scene.geometry n).map
                (drawCallOf fixed view))) := by
  have hmain := drawLoop_first_pass scene.geometry fixed view scene.nodes []
    (2 * scene.nodes.length + 1) 0 scene.nodes.length
    (by omega) (by simp) h (by intro x hx; simp at hx)
  simpa [on_draw] using hmain

/-- C2: for a scene whose geometry-bearing nodes each reference a
present geometry, one `on_draw` invocation succeeds and issues the
draw call of every transparent node after those of all opaque nodes
(its draw sequence is opaque nodes in order, then transparent nodes in
order) and issues exactly one draw call per node (the call sequence is
a permutation of the node list). -/
theorem on_draw_opaque_before_transparent (scene : SceneGraphModel)
    (fixed : Option (List String)) (view : Mat4)
    (h : nodesHaveGeometry scene.geometry scene.nodes) :
    ∃ calls, on_draw scene fixed view = .ok calls ∧
      calls.map DrawCall.node
        = ((scene.nodes.filter fun n => !nodeTransparent scene.geometry n).map
            GraphNode.name)
          ++ ((scene.nodes.filter fun n => nodeTransparent scene.geometry n).map
            GraphNode.name) ∧
      List.Perm (calls.map DrawCall.node) (scene.nodes.map GraphNode.name) := by
  refine ⟨_, on_draw_eq scene fixed view h, ?_, ?_⟩
  · simp only [List.map_append, List.map_map]
    rfl
  · have hperm := List.filter_append_perm
      (fun n => !nodeTransparent scene.geometry n) scene.nodes
    simp only [Bool.not_not] at hperm
    have hp := hperm.map GraphNode.name
    simp only [List.map_append] at hp
    have heq : List.map DrawCall.node
        (((scene.nodes.filter fun n => !nodeTransparent scene.geometry n).map
            (drawCallOf fixed view))
          ++ ((scene.nodes.filter fun n => nodeTransparent scene.geometry n).map
            (drawCallOf fixed view)))
        = ((scene.nodes.filter fun n => !nodeTransparent scene.geometry n).map
            GraphNode.name)
          ++ ((scene.nodes.filter fun n => nodeTransparent scene.geometry n).map
            GraphNode.name) := by
      simp only [List.map_append, List.map_map]
      rfl
    rw [heq]
    exact hp

/-- An opaque mesh. -/
def meshOpaque : Mesh := ⟨false⟩

/-- A transparent mesh. -/
def meshTransparent : Mesh := ⟨true⟩

/-- The spec's example scene: nodes A (opaque), B (transparent),
C (opaque), in that enumeration order. -/
def sceneABC : SceneGraphModel where
  nodes := [⟨"A", 1, some "gA"⟩, ⟨"B", 1, some "gB"⟩, ⟨"C", 1, some "gC"⟩]
  geometry := fun g =>
    if g = "gA" then some meshOpaque
    else if g = "gB" then some meshTransparent
    else if g = "gC" then some meshOpaque
    else none

/-- Closed-instance check for C2 on the spec's A/B/C example: the draw
calls go out as A, C, B — a permutation of the three nodes with the
transparent node last. -/
theorem on_draw_opaque_before_transparent_witness :
    ∃ calls, on_draw sceneABC none 1 = .ok calls ∧
      calls.map DrawCall.node = ["A", "C", "B"] ∧
      List.Perm (calls.map DrawCall.node) ["A", "B", "C"] := by
  obtain ⟨calls, h1, h2, h3⟩ :=
    on_draw_opaque_before_transparent sceneABC none 1
      (by
        intro n hn
        simp only [sceneABC, List.mem_cons, List.not_mem_nil, or_false] at hn
        rcases hn with rfl | rfl | rfl
        · exact ⟨"gA", meshOpaque, rfl, by decide⟩
        · exact ⟨"gB", meshTransparent, rfl, by decide⟩
        · exact ⟨"gC", meshOpaque, rfl, by decide⟩)
  refine ⟨calls, h1, ?_, ?_⟩
  · rw [h2]
    decide
  · rw [h2] at h3 ⊢
    exact h3.trans (by decide)

/-- A pure-translation homogeneous 4×4 matrix: identity rotation block,
vector `v` in the first three rows of the last column. -/
def translationMat (v : Vec3) : Mat4 :=
  Matrix.of fun i j =>
    if i = j then 1
    else if h : j = 3 ∧ i.val < 3 then v ⟨i.val, h.2⟩
    else 0

/-- Helper: a pure-translation matrix is upper triangular with unit
diagonal, so its determinant is 1. -/
lemma translationMat_det (v : Vec3) : (translationMat v).det = 1 := by
  have htri : (translationMat v).BlockTriangular id := by
    intro i j hij
    have hne : ¬(i = j) := by
      intro h
      subst h
      exact lt_irrefl _ hij
    have hn3 : ¬(j = 3 ∧ i.val < 3) := by
      rintro ⟨rfl, hi⟩
      have h4 := i.isLt
      have := Fin.lt_def.1 hij
      simp at this
      omega
    simp [translationMat, hne, hn3]
  rw [Matrix.det_of_upperTriangular htri]
  simp [translationMat]

/-- Helper: `A · (det A)⁻¹·adj(A) = 1` whenever `det A ≠ 0`. -/
lemma mul_npInv_cancel (A : Mat4) (hA : A.det ≠ 0) : A * npInv A = 1 := by
  rw [npInv, Matrix.mul_smul, Matrix.mul_adjugate, smul_smul,
    inv_mul_cancel₀ hA, one_smul]

/-- Helper: pre-multiplying by a pure translation undoes the
`np.linalg.inv` of that same translation. -/
lemma translationMat_cancel (v : Vec3) (tm : Mat4) :
    translationMat v * (npInv (translationMat v) * tm) = tm := by
  rw [← mul_assoc,
    mul_npInv_cancel _ (by rw [translationMat_det]; exact one_ne_zero),
    one_mul]

/-- C7: in the per-frame draw routine, every node whose geometry name
is in the caller-supplied fixed set is drawn with transform
`inverse(view_transform) · node_transform` instead of `node_transform`
alone; and when the view transform is a pure translation, the fixed
node's effective stack transform (view times the drawn transform)
cancels that translation, leaving the bare node transform. -/
theorem on_draw_fixed_inverse_view (scene : SceneGraphModel)
    (fixedList : List String) (view : Mat4)
    (h : nodesHaveGeometry scene.geometry scene.nodes) :
    ∃ calls, on_draw scene (some fixedList) view = .ok calls ∧
      (∀ n ∈ scene.nodes, ∀ g, n.geometryName = some g → g ∈ fixedList →
        (⟨n.name, npInv view * n.transform⟩ : DrawCall) ∈ calls) ∧
      (∀ v : Vec3, view = translationMat v → ∀ tm : Mat4,
        translationMat v * (npInv view * tm) = tm) := by
  refine ⟨_, on_draw_eq scene (some fixedList) view h, ?_, ?_⟩
  · intro n hn g hg hgf
    have hfix : nodeFixed (some fixedList) n = true := by
      simp [nodeFixed, hg, isFixed, hgf]
    have hcall : drawCallOf (some fixedList) view n
        = ⟨n.name, npInv view * n.transform⟩ := by
      simp [drawCallOf, hfix]
    rcases hb : nodeTransparent scene.geometry n with _ | _
    · apply List.mem_append_left
      rw [← hcall]
      exact List.mem_map_of_mem _ (List.mem_filter.2 ⟨hn, by simp [hb]⟩)
    · apply List.mem_append_right
      rw [← hcall]
      exact List.mem_map_of_mem _ (List.mem_filter.2 ⟨hn, hb⟩)
  · intro v hv tm
    subst hv
    exact translationMat_cancel v tm

/-- A one-node scene whose geometry is in the fixed set. -/
def sceneFixedNode : SceneGraphModel where
  nodes := [⟨"D", 1, some "gD"⟩]
  geometry := fun g => if g = "gD" then some meshOpaque else none

/-- A concrete translation vector for the C7 check. -/
def vShift : Vec3 := ![1, 2, 3]

/-- Closed-instance check for C7: the fixed node D is drawn with
`inverse(view) · transform`, and the pure-translation view cancels
against it. -/
theorem on_draw_fixed_inverse_view_witness :
    ∃ calls,
      on_draw sceneFixedNode (some ["gD"]) (translationMat vShift)
        = .ok calls ∧
      (⟨"D", npInv (translationMat vShift) * 1⟩ : DrawCall) ∈ calls ∧
      translationMat vShift * (npInv (translationMat vShift) * 1) = 1 := by
  obtain ⟨calls, h1, h2, h3⟩ :=
    on_draw_fixed_inverse_view sceneFixedNode ["gD"] (translationMat vShift)
      (by
        intro n hn
        simp only [sceneFixedNode, List.mem_cons, List.not_mem_nil,
          or_false] at hn
        subst hn
        exact ⟨"gD", meshOpaque, rfl, by decide⟩)
  refine ⟨calls, h1, ?_, h3 vShift rfl 1⟩
  have hmem := h2 ⟨"D", 1, some "gD"⟩ (by simp [sceneFixedNode]) "gD" rfl
    (by decide)
  simpa using hmem

/-! ### `reset_view` (C8) -/

/-- The parts of the scene `reset_view` reads. -/
structure SceneParams where
  centroid : Vec3
  scale : ℚ

/-- The arcball rotation widget as `reset_view` manipulates it:
`Arcball()` yields a fresh unplaced widget, `place(center, radius)`
records the window-space pivot and radius. -/
inductive BallState where
  | fresh
  | placed (center : ℚ × ℚ) (radius : ℚ)

/-- The `self.view` record assigned by `reset_view`. -/
structure ViewState where
  cull : Bool
  axis : AxisMode
  fullscreen : Bool
  wireframe : Bool
  translation : Vec3
  center : Vec3
  scale : ℚ
  ball : BallState

/-- Caller-supplied flag overrides (`flags` dict): any subset of the
view keys; unrecognized keys have no representation because the
override loop ignores them (`if k in self.view`). -/
structure FlagOverrides where
  cull : Option Bool := none
  axis : Option AxisMode := none
  fullscreen : Option Bool := none
  wireframe : Option Bool := none
  translation : Option Vec3 := none
  center : Option Vec3 := none
  scale : Option ℚ := none
  ball : Option BallState := none

/-- The `for k, v in flags.items(): if k in self.view: self.view[k] = v`
loop. -/
def applyOverrides (f : FlagOverrides) (v : ViewState) : ViewState where
  cull := f.cull.getD v.cull
  axis := f.axis.getD v.axis
  fullscreen := f.fullscreen.getD v.fullscreen
  wireframe := f.wireframe.getD v.wireframe
  translation := f.translation.getD v.translation
  center := f.center.getD v.center
  scale := f.scale.getD v.scale
  ball := f.ball.getD v.ball

/-- Embedding of `SceneViewer.reset_view`.  The defaults dict is
assigned unconditionally; inside the `try` block the arcball is placed
at the window center (radius = average of width and height) and any
flag overrides are applied.  `windowSize = none` models the window
dimensions being unavailable (e.g. the window not yet sized), which
raises inside the `try` and is swallowed by `except BaseException:
pass` — so the function still returns the defaults instead of
propagating an error.  The embedding is total: no input makes it
raise. -/
def reset_view (scene : SceneParams) (windowSize : Option (ℚ × ℚ))
    (flags : Option FlagOverrides) : ViewState :=
  let v : ViewState :=
    { cull := true
      axis := .off
      fullscreen := false
      wireframe := false
      translation := 0
      center := scene.centroid
      scale := scene.scale
      ball := .fresh }
  match windowSize with
  | none => v
  | some (w, h) =>
    let vPlaced := { v with ball := .placed (w / 2, h / 2) ((w + h) / 2) }
    match flags with
    | none => vPlaced
    | some f => applyOverrides f vPlaced

/-- C8: `reset_view` never raises — a placement failure (window not
yet sized, `windowSize = none`) is swallowed, the flag overrides are
skipped (partial update), and the non-placement view fields are still
reset to their defaults: translation zero, center = scene centroid,
scale = scene scale, cull on, axis off, fullscreen off, wireframe
off. -/
theorem reset_view_swallows_placement_failure (scene : SceneParams)
    (flags : Option FlagOverrides) :
    (reset_view scene none flags).translation = 0 ∧
    (reset_view scene none flags).center = scene.centroid ∧
    (reset_view scene none flags).scale = scene.scale ∧
    (reset_view scene none flags).cull = true ∧
    (reset_view scene none flags).axis = .off ∧
    (reset_view scene none flags).fullscreen = false ∧
    (reset_view scene none flags).wireframe = false :=
  ⟨rfl, rfl, rfl, rfl, rfl, rfl, rfl⟩

/-! ### `add_geometry` bookkeeping maps (C10) -/

/-- Python dict assignment `d[k] = v` restricted to what the key-set
invariant needs: the key is now present (old entry, if any, gone). -/
def dictInsert {β : Type} (d : List (String × β)) (k : String) (v : β) :
    List (String × β) :=
  (k, v) :: d.filter fun p => p.1 ≠ k

/-- The key set of a modelled dict. -/
def dictKeys {β : Type} (d : List (String × β)) : List String :=
  d.map Prod.fst

/-- The four per-geometry maps the viewer constructor initializes to
empty dicts and `add_geometry` writes into. -/
structure ViewerMaps where
  vertex_list : List (String × Nat)
  vertex_list_hash : List (String × String)
  vertex_list_mode : List (String × Nat)
  textures : List (String × Nat)

/-- The empty maps created in `SceneViewer.__init__`. -/
def initialMaps : ViewerMaps := ⟨[], [], [], []⟩

/-- What `rendering.convert_to_vertexlist` plus `batch.add_indexed`
deliver for one geometry: the vertex-list handle and the draw mode
(`args[1]`). -/
structure ConvResult where
  handle : Nat
  mode : Nat

/-- Embedding of `SceneViewer.add_geometry`.  External results are
parameters: `conv` for the conversion/upload, `pyHash` for Python's
`hash`, `hasVisualMaterial` for the
`hasattr(geometry, 'visual') and hasattr(geometry.visual, 'material')`
probe, `texResult` for `rendering.material_to_texture`.  Mutations
happen in source order — `vertex_list[name]` (line 173), then
`geometry_hash` (line 175, which can raise: C9), then
`vertex_list_hash[name]`, `vertex_list_mode[name]` and optionally
`textures[name]` — so an error carries the partially mutated state. -/
def add_geometry (name : String) (conv : Except String ConvResult)
    (pyHash : String → Int) (g : PyGeometry)
    (hasVisualMaterial : Bool) (texResult : Option Nat)
    (s : ViewerMaps) : Except (String × ViewerMaps) ViewerMaps :=
  match conv with
  | .error e => .error (e, s)
  | .ok args =>
    let s1 := { s with vertex_list := dictInsert s.vertex_list name args.handle }
    match geometry_hash pyHash g with
    | .error e => .error (e, s1)
    | .ok hsh =>
      let s2 := { s1 with
        vertex_list_hash := dictInsert s1.vertex_list_hash name hsh }
      let s3 := { s2 with
        vertex_list_mode := dictInsert s2.vertex_list_mode name args.mode }
      if hasVisualMaterial then
        match texResult with
        | some tex => .ok { s3 with textures := dictInsert s3.textures name tex }
        | none => .ok s3
      else .ok s3

/-- The C10 invariant: the three per-geometry maps have exactly the
same key set, and the textures key set is contained in it. -/
def mapsInvariant (s : ViewerMaps) : Prop :=
  (∀ k, k ∈ dictKeys s.vertex_list ↔ k ∈ dictKeys s.vertex_list_hash) ∧
  (∀ k, k ∈ dictKeys s.vertex_list ↔ k ∈ dictKeys s.vertex_list_mode) ∧
  (∀ k, k ∈ dictKeys s.textures → k ∈ dictKeys s.vertex_list)

/-- Helper: membership in the key set after a dict assignment. -/
lemma mem_dictKeys_dictInsert {β : Type} (d : List (String × β))
    (n k : String) (v : β) :
    k ∈ dictKeys (dictInsert d n v) ↔ k = n ∨ k ∈ dictKeys d := by
  by_cases hk : k = n
  · subst hk
    simp [dictKeys, dictInsert]
  · simp only [dictKeys, dictInsert, List.map_cons, List.mem_cons, hk,
      false_or, List.mem_map, List.mem_filter]
    constructor
    · rintro ⟨p, ⟨hp, -⟩, rfl⟩
      exact ⟨p, hp, rfl⟩
    · rintro ⟨p, hp, rfl⟩
      exact ⟨p, ⟨hp, by simpa using hk⟩, rfl⟩

/-- C10: construction starts the three per-geometry maps (and the
textures map) empty, so they trivially share a key set; and every
successful `add_geometry` call preserves the invariant — it inserts an
entry under the same name into `vertex_list`, `vertex_list_hash` and
`vertex_list_mode`, and into `textures` at most under that same name,
keeping the three key sets identical and the textures key set a subset
of them. -/
theorem viewer_maps_invariant :
    mapsInvariant initialMaps ∧
    (∀ (name : String) (conv : Except String ConvResult)
        (pyHash : String → Int) (g : PyGeometry)
        (hvm : Bool) (tex : Option Nat) (s sNew : ViewerMaps),
      mapsInvariant s →
      add_geometry name conv pyHash g hvm tex s = .ok sNew →
      mapsInvariant sNew) := by
  constructor
  · exact ⟨fun k => by simp [initialMaps, dictKeys],
      fun k => by simp [initialMaps, dictKeys],
      fun k hk => by simp [initialMaps, dictKeys] at hk⟩
  · intro name conv pyHash g hvm tex s sNew hs hok
    rcases conv with e | args
    · simp [add_geometry] at hok
    · rcases hgh : geometry_hash pyHash g with e | hsh
      · simp [add_geometry, hgh] at hok
      · obtain ⟨h1, h2, h3⟩ := hs
        have hshape : sNew.vertex_list = dictInsert s.vertex_list name args.handle ∧
            sNew.vertex_list_hash = dictInsert s.vertex_list_hash name hsh ∧
            sNew.vertex_list_mode = dictInsert s.vertex_list_mode name args.mode ∧
            (sNew.textures = s.textures ∨
              sNew.textures = dictInsert s.textures name (tex.getD 0)) := by
          cases hvm
          · simp only [add_geometry, hgh, Bool.false_eq_true, if_false] at hok
            injection hok with hok2
            subst hok2
            exact ⟨rfl, rfl, rfl, Or.inl rfl⟩
          · rcases tex with _ | t
            · simp only [add_geometry, hgh, if_true] at hok
              injection hok with hok2
              subst hok2
              exact ⟨rfl, rfl, rfl, Or.inl rfl⟩
            · simp only [add_geometry, hgh, if_true] at hok
              injection hok with hok2
              subst hok2
              exact ⟨rfl, rfl, rfl, Or.inr rfl⟩
        obtain ⟨hv, hh, hm, ht⟩ := hshape
        refine ⟨fun k => ?_, fun k => ?_, fun k hk => ?_⟩
        · rw [hv, hh, mem_dictKeys_dictInsert, mem_dictKeys_dictInsert]
          exact or_congr Iff.rfl (h1 k)
        · rw [hv, hm, mem_dictKeys_dictInsert, mem_dictKeys_dictInsert]
          exact or_congr Iff.rfl (h2 k)
        · rw [hv, mem_dictKeys_dictInsert]
          rcases ht with ht | ht
          · rw [ht] at hk
            exact Or.inr (h3 k hk)
          · rw [ht, mem_dictKeys_dictInsert] at hk
            rcases hk with rfl | hk
            · exact Or.inl rfl
            · exact Or.inr (h3 k hk)

/-- Closed-instance check for C10: adding one geometry named "m" to
the freshly constructed empty maps yields matching key sets. -/
theorem viewer_maps_invariant_witness :
    mapsInvariant ⟨[("m", 1)], [("m", "d")], [("m", 4)], []⟩ :=
  viewer_maps_invariant.2 "m" (.ok ⟨1, 4⟩) (fun _ => 0)
    ⟨some "d", none, none⟩ false none initialMaps
    ⟨[("m", 1)], [("m", "d")], [("m", 4)], []⟩
    viewer_maps_invariant.1 rfl
